import Mathlib

/-
Shallow embedding of the SBC2000 registration-handler form package
(src/form/handler.go) together with proofs of properties of its
parsing and persistence logic.

Conventions of the embedding:
- Go `map[string]string` payloads are modelled as total functions
  `String → String`, since a Go map lookup of an absent key yields the
  zero value "".
- Go errors are modelled by `Option` of an explicit error inductive;
  `none` means a nil error.
- `time.Time` values produced by `time.Unix(n, 0)` are keyed entirely by
  the integer `n`, so submission timestamps are modelled as `Int` epoch
  seconds.
- The database is modelled as an explicit state of committed rows plus a
  behaviour record saying which statements of the transaction succeed.
-/

namespace RegistrationHandler

/-- The two languages of `handler.go` (constants `nl` and `en`). -/
inductive Language where
  | nl
  | en
deriving DecidableEq

/-- Go `string(language)`: the underlying string of the language constant. -/
def langString : Language → String
  | Language.nl => "NL"
  | Language.en => "EN"

/-- The `team` struct of `handler.go`. -/
structure Team where
  name : String
  type : String
  level : String
deriving DecidableEq

/-- The `form` struct of `handler.go`; `submitTime` is epoch seconds. -/
structure Form where
  club : String
  name : String
  surname : String
  email : String
  phone : String
  submitTime : Int
  teams : List Team
deriving DecidableEq

/-- The `Message` struct of `handler.go`; the payload map is a total
function returning "" for absent keys. -/
structure Message where
  title : String
  data : String → String

/-- The errors `parseData` can produce. `missingValue key` is the
error built by `readEntry`, `parseIntError s` is the error returned by
`strconv.ParseInt` applied to `s`, `unknownSubmitTimeFormat` and
`noTeams` are the two `errors.New` values of `parseData`. -/
inductive ParseError where
  | missingValue (key : String)
  | unknownSubmitTimeFormat
  | parseIntError (s : String)
  | noTeams
deriving DecidableEq

/-- The closure `readEntry` of `parseData` (handler.go lines 174-181):
when no error is pending it reads `data[key]` and records a
missing-value error if the value is empty; when an error is pending it
does nothing and returns the zero value "". -/
def readEntry (data : String → String) (err : Option ParseError) (key : String) :
    String × Option ParseError :=
  match err with
  | some e => ("", some e)
  | none =>
    let value := data key
    (value, if value = "" then some (ParseError.missingValue key) else none)

/-- The `switch parsed.Type` of `parseTeam` for English submissions. -/
def translateType (t : String) : String :=
  if t = "Men" then "Heren"
  else if t = "Women" then "Dames"
  else "Onbekend, check registration-handler"

/-- The `switch parsed.Level` of `parseTeam` for English submissions. -/
def translateLevel (l : String) : String :=
  if l = "National" then "Bond 2"
  else if l = "Regional High" then "Regio 1"
  else if l = "Regional Low" then "Regio 3-4"
  else "Onbekend, check registration-handler"

/-- Go `fmt.Sprintf("team%d-" + field, index)`. -/
def teamKey (index : Nat) (field : String) : String :=
  "team" ++ toString index ++ "-" ++ field

/-- `parseTeam` of handler.go (lines 214-247): a team is produced only
when the slot name is non-empty; for English submissions type and level
are translated. -/
def parseTeam (data : String → String) (language : Language) (index : Nat) : Option Team :=
  let name := data (teamKey index "name")
  if name = "" then none
  else
    let t : Team := ⟨name, data (teamKey index "type"), data (teamKey index "level")⟩
    match language with
    | Language.nl => some t
    | Language.en => some ⟨t.name, translateType t.type, translateLevel t.level⟩

/-- The team loop of `parseData` (lines 201-205): slots 0 to 4 in order,
appending each successfully parsed team. -/
def collectTeams (data : String → String) (language : Language) : List Team :=
  (List.range 5).filterMap (parseTeam data language)

/-- Go `strings.Split(s, ".")` on the character list: split around every
dot; the empty input yields one empty chunk. -/
def splitDotChars : List Char → List (List Char)
  | [] => [[]]
  | c :: cs =>
    if c = '.' then [] :: splitDotChars cs
    else
      match splitDotChars cs with
      | [] => [[c]]
      | p :: ps => (c :: p) :: ps

/-- Go `strings.Split(s, ".")`. -/
def splitDot (s : String) : List String :=
  (splitDotChars s.data).map String.mk

/-- Decimal digit-string value: `some` of the value when the character
list is non-empty and all decimal digits, otherwise `none`. -/
def decDigitsVal : List Char → Option Nat
  | [] => none
  | cs =>
    if cs.all (fun c => c.isDigit) then
      some (cs.foldl (fun acc c => 10 * acc + (c.toNat - 48)) 0)
    else none

/-- Go `strconv.ParseInt(s, 10, 64)`: optional sign, at least one
digit, and the signed value must fit in a 64-bit integer. -/
def parseInt64 (s : String) : Option Int :=
  let signed : Option Int :=
    match s.data with
    | '+' :: cs => (decDigitsVal cs).map (fun n => (n : Int))
    | '-' :: cs => (decDigitsVal cs).map (fun n => -(n : Int))
    | cs => (decDigitsVal cs).map (fun n => (n : Int))
  match signed with
  | none => none
  | some v => if -(2 ^ 63) ≤ v ∧ v ≤ 2 ^ 63 - 1 then some v else none

/-- The five required contact keys, in the order `parseData` reads them. -/
def contactKeys : List String :=
  ["contact-club", "contact-name", "contact-surname", "contact-email", "contact-phone"]

/-- The five `readEntry` calls of `parseData` (lines 183-187), threading
the error exactly as the Go closure does. -/
def parseContacts (data : String → String) :
    (String × String × String × String × String) × Option ParseError :=
  let (club, e1) := readEntry data none "contact-club"
  let (name, e2) := readEntry data e1 "contact-name"
  let (surname, e3) := readEntry data e2 "contact-surname"
  let (email, e4) := readEntry data e3 "contact-email"
  let (phone, e5) := readEntry data e4 "contact-phone"
  ((club, name, surname, email, phone), e5)

/-- `parseData` of handler.go (lines 173-212). The submit-time block
runs only when no contact error is pending; its missing-value and
unknown-format errors are dead stores because the `ParseInt` assignment
overwrites `err`; a `ParseInt` failure returns early, before the team
loop; the no-teams check runs only when no error is pending. -/
def parseData (data : String → String) (language : Language) : Form × Option ParseError :=
  match parseContacts data with
  | ((club, name, surname, email, phone), contactErr) =>
    match contactErr with
    | some e =>
      ({ club, name, surname, email, phone, submitTime := 0,
         teams := collectTeams data language }, some e)
    | none =>
      let (stVal, e6) := readEntry data none "submit-time"
      let parts := splitDot stVal
      let e7 := if parts = [] then some ParseError.unknownSubmitTimeFormat else e6
      match parseInt64 (parts.headD "") with
      | none =>
        ({ club, name, surname, email, phone, submitTime := 0, teams := [] },
         some (ParseError.parseIntError (parts.headD "")))
      | some n =>
        let teams := collectTeams data language
        ({ club, name, surname, email, phone, submitTime := n, teams },
         if teams = [] then some ParseError.noTeams else none)

/-- Decimal digit characters of `n`, most significant first, computed
with explicit fuel so that the definition is structural. The fuel is
never exhausted when `n < fuel`. -/
def natDigitsAux : Nat → Nat → List Char
  | 0, _ => []
  | fuel + 1, n =>
    if n < 10 then [Nat.digitChar n]
    else natDigitsAux fuel (n / 10) ++ [Nat.digitChar (n % 10)]

/-- Decimal digit characters of `n`, most significant first. -/
def natDigits (n : Nat) : List Char :=
  natDigitsAux (n + 1) n

/-- Go `fmt.Sprintf("%06d", n)` for a non-negative value: the decimal
representation left-padded with zeros to width 6. -/
def fmt06 (n : Nat) : String :=
  String.mk (List.replicate (6 - (natDigits n).length) '0' ++ natDigits n)

/-- `createSubscriptionID` of handler.go (lines 163-171). The Go loop
draws from the handler rng until the formatted id is absent from the
in-memory set, then inserts it and returns it. Here the rng outputs are
an explicit draw list and the set is a list of ids; `none` models the
loop running out of the supplied draws. -/
def createSubscriptionID : List Nat → List String → Option (String × List String)
  | [], _ => none
  | d :: ds, ids =>
    let newID := fmt06 (d % 1000000)
    if newID ∈ ids then createSubscriptionID ds ids
    else some (newID, newID :: ids)

/-- A sequence of `createSubscriptionID` calls against one handler: each
call consumes its own draw list and threads the identifier set; the
first component collects the returned identifiers in order. -/
def issueMany : List (List Nat) → List String → List String × List String
  | [], ids => ([], ids)
  | ds :: dss, ids =>
    match createSubscriptionID ds ids with
    | none => issueMany dss ids
    | some (id, ids2) =>
      let rest := issueMany dss ids2
      (id :: rest.1, rest.2)

/-- A row of the `inschrijving` table (the parent insert of
`storeForm`, lines 124-139). -/
structure ParentRow where
  inschrijfnummer : String
  jaar : Nat
  voornaam : String
  achternaam : String
  email : String
  telefoon : String
  vereniging : String
  taal : String
  inschrijfdatum : Int
  id : Nat
deriving DecidableEq

/-- A row of the `team` table (the child insert of `storeForm`,
lines 149-155). -/
structure TeamRow where
  inschrijvingsid : Nat
  teamnaam : String
  type : String
  niveau : String
deriving DecidableEq

/-- Committed database state: the two tables written by `storeForm`. -/
structure DbState where
  inschrijving : List ParentRow
  team : List TeamRow
deriving DecidableEq

/-- Outcome of each statement of the `storeForm` transaction, chosen by
the store: whether `Begin` succeeds, whether the parent `INSERT ...
RETURNING id` succeeds (and with which generated key), whether the
child `INSERT` succeeds, and whether `Commit` succeeds. -/
structure DbBehavior where
  beginOk : Bool
  parentInsertId : Option Nat
  childInsertOk : Bool
  commitOk : Bool

/-- The storage errors `storeForm` can return. There is no variant for
a failed parent insert: the code discards the error of
`tx.QueryRow(...).Scan(&lastInsertID)`. -/
inductive StoreError where
  | beginFailed
  | childInsertFailed
  | commitFailed
deriving DecidableEq

/-- `storeForm` of handler.go (lines 105-160), including the
`createSubscriptionID` call it makes after `Begin`. The deferred
rollback discards the pending rows whenever a non-nil error is
returned, so the committed state changes only on the success path. The
result of the parent insert is not inspected: on its failure
`lastInsertID` keeps its zero value, no error is recorded, and the
child rows and the commit still proceed. `none` models the id loop
running out of draws. -/
def storeForm (beh : DbBehavior) (year : Nat) (draws : List Nat) (st : DbState)
    (ids : List String) (f : Form) (language : Language) :
    Option (Option StoreError × DbState × List String) :=
  if beh.beginOk then
    match createSubscriptionID draws ids with
    | none => none
    | some (subscriptionID, ids2) =>
      let lastInsertID := beh.parentInsertId.getD 0
      let parentRows : List ParentRow :=
        match beh.parentInsertId with
        | some i =>
          [⟨subscriptionID, year, f.name, f.surname, f.email, f.phone, f.club,
            langString language, f.submitTime, i⟩]
        | none => []
      let teamRows : List TeamRow :=
        f.teams.map (fun t => ⟨lastInsertID, t.name, t.type, t.level⟩)
      if beh.childInsertOk then
        if beh.commitOk then
          some (none, ⟨st.inschrijving ++ parentRows, st.team ++ teamRows⟩, ids2)
        else some (some StoreError.commitFailed, st, ids2)
      else some (some StoreError.childInsertFailed, st, ids2)
  else some (some StoreError.beginFailed, st, ids)

/-- The errors `Handle` can return: a validation error from `parseData`
or a storage error from `storeForm`. -/
inductive HandleError where
  | parseError (e : ParseError)
  | storeError (e : StoreError)
deriving DecidableEq

/-- The title switch of `Handle` (lines 85-93). -/
def langOfTitle (title : String) : Option Language :=
  if title = "Inschrijven teams" then some Language.nl
  else if title = "Sign up teams" then some Language.en
  else none

/-- `Handle` of handler.go (lines 82-103): select the language from the
title, ignore the message when the title is unknown, otherwise parse
and store. -/
def Handle (beh : DbBehavior) (year : Nat) (draws : List Nat) (st : DbState)
    (ids : List String) (message : Message) :
    Option (Option HandleError × DbState × List String) :=
  match langOfTitle message.title with
  | none => some (none, st, ids)
  | some language =>
    match parseData message.data language with
    | (_, some e) => some (some (HandleError.parseError e), st, ids)
    | (f, none) =>
      match storeForm beh year draws st ids f language with
      | none => none
      | some (some e, st2, ids2) => some (some (HandleError.storeError e), st2, ids2)
      | some (none, st2, ids2) => some (none, st2, ids2)

/-! ### Parser lemmas -/

theorem readEntry_some (data : String → String) (e : ParseError) (key : String) :
    readEntry data (some e) key = ("", some e) := rfl

theorem readEntry_none (data : String → String) (key : String) :
    readEntry data none key =
      (data key, if data key = "" then some (ParseError.missingValue key) else none) := rfl

theorem parseContacts_of_nonempty (data : String → String)
    (h1 : data "contact-club" ≠ "") (h2 : data "contact-name" ≠ "")
    (h3 : data "contact-surname" ≠ "") (h4 : data "contact-email" ≠ "")
    (h5 : data "contact-phone" ≠ "") :
    parseContacts data =
      ((data "contact-club", data "contact-name", data "contact-surname",
        data "contact-email", data "contact-phone"), none) := by
  simp [parseContacts, readEntry, h1, h2, h3, h4, h5]

theorem parseContacts_snd (data : String → String) :
    (parseContacts data).2 =
      (contactKeys.find? (fun k => data k == "")).map ParseError.missingValue := by
  by_cases h1 : data "contact-club" = "" <;>
    by_cases h2 : data "contact-name" = "" <;>
      by_cases h3 : data "contact-surname" = "" <;>
        by_cases h4 : data "contact-email" = "" <;>
          by_cases h5 : data "contact-phone" = "" <;>
            simp [parseContacts, readEntry, contactKeys, List.find?, beq_eq_decide,
              h1, h2, h3, h4, h5]

theorem parseData_snd_of_contacts_some (data : String → String) (language : Language)
    (e : ParseError) (h : (parseContacts data).2 = some e) :
    (parseData data language).2 = some e := by
  rcases hpc : parseContacts data with ⟨⟨club, name, surname, email, phone⟩, err⟩
  rw [hpc] at h
  simp only at h
  subst h
  simp [parseData, hpc]

theorem parseData_of_nonempty (data : String → String) (language : Language)
    (h1 : data "contact-club" ≠ "") (h2 : data "contact-name" ≠ "")
    (h3 : data "contact-surname" ≠ "") (h4 : data "contact-email" ≠ "")
    (h5 : data "contact-phone" ≠ "") :
    parseData data language =
      match parseInt64 ((splitDot (data "submit-time")).headD "") with
      | none =>
        ({ club := data "contact-club", name := data "contact-name",
           surname := data "contact-surname", email := data "contact-email",
           phone := data "contact-phone", submitTime := 0, teams := [] },
         some (ParseError.parseIntError ((splitDot (data "submit-time")).headD "")))
      | some n =>
        ({ club := data "contact-club", name := data "contact-name",
           surname := data "contact-surname", email := data "contact-email",
           phone := data "contact-phone", submitTime := n,
           teams := collectTeams data language },
         if collectTeams data language = [] then some ParseError.noTeams else none) := by
  rw [parseData, parseContacts_of_nonempty data h1 h2 h3 h4 h5]
  simp [readEntry]

/-! ### Team lemmas -/

/-- The team a non-empty slot yields: the raw fields for Dutch, the
translated type and level for English. -/
def slotTeam (data : String → String) (language : Language) (index : Nat) : Team :=
  match language with
  | Language.nl =>
    ⟨data (teamKey index "name"), data (teamKey index "type"), data (teamKey index "level")⟩
  | Language.en =>
    ⟨data (teamKey index "name"), translateType (data (teamKey index "type")),
     translateLevel (data (teamKey index "level"))⟩

theorem parseTeam_eq (data : String → String) (language : Language) (index : Nat) :
    parseTeam data language index =
      if data (teamKey index "name") = "" then none
      else some (slotTeam data language index) := by
  cases language <;> simp [parseTeam, slotTeam]

theorem parseTeam_eq_none_iff (data : String → String) (language : Language) (index : Nat) :
    parseTeam data language index = none ↔ data (teamKey index "name") = "" := by
  rw [parseTeam_eq]
  split <;> simp_all

theorem filterMap_eq_map_filter {α β : Type} (l : List α) (f : α → Option β)
    (p : α → Bool) (g : α → β)
    (h : ∀ a ∈ l, f a = if p a then some (g a) else none) :
    l.filterMap f = (l.filter p).map g := by
  induction l with
  | nil => rfl
  | cons a l ih =>
    have ha := h a (List.mem_cons_self a l)
    have hl : ∀ b ∈ l, f b = if p b then some (g b) else none :=
      fun b hb => h b (List.mem_cons_of_mem a hb)
    by_cases hp : p a <;>
      simp [List.filterMap_cons, List.filter_cons, ha, hp, ih hl]

theorem collectTeams_eq (data : String → String) (language : Language) :
    collectTeams data language =
      ((List.range 5).filter (fun i => data (teamKey i "name") != "")).map
        (slotTeam data language) := by
  refine filterMap_eq_map_filter _ _ _ _ (fun i _ => ?_)
  rw [parseTeam_eq]
  by_cases h : data (teamKey i "name") = "" <;> simp [h]

theorem collectTeams_eq_nil_iff (data : String → String) (language : Language) :
    collectTeams data language = [] ↔ ∀ i, i < 5 → data (teamKey i "name") = "" := by
  simp only [collectTeams, List.filterMap_eq_nil_iff, List.mem_range]
  constructor
  · intro h i hi
    exact (parseTeam_eq_none_iff data language i).1 (h i hi)
  · intro h i hi
    exact (parseTeam_eq_none_iff data language i).2 (h i hi)

/-! ### Split and integer-parse lemmas -/

theorem splitDotChars_ne_nil (cs : List Char) : splitDotChars cs ≠ [] := by
  induction cs with
  | nil => simp [splitDotChars]
  | cons c cs ih =>
    rw [splitDotChars]
    split
    · simp
    · match h : splitDotChars cs with
      | [] => exact absurd h ih
      | p :: ps => simp

theorem splitDot_ne_nil (s : String) : splitDot s ≠ [] := by
  simp [splitDot, splitDotChars_ne_nil]

/-! ### Identifier-generation lemmas -/

theorem digitChar_isDigit (n : Nat) (h : n < 10) : (Nat.digitChar n).isDigit = true := by
  interval_cases n <;> decide

theorem natDigitsAux_length_le :
    ∀ (fuel n k : Nat), n < fuel → n < 10 ^ k → 1 ≤ k →
      (natDigitsAux fuel n).length ≤ k := by
  intro fuel
  induction fuel with
  | zero => intro n k h; exact absurd h (Nat.not_lt_zero n)
  | succ fuel ih =>
    intro n k hn hk hk1
    rw [natDigitsAux]
    split
    · simpa using hk1
    · rename_i h10
      have hdiv : n / 10 < n := Nat.div_lt_self (by omega) (by norm_num)
      have hk2 : 2 ≤ k := by
        rcases Nat.lt_or_ge k 2 with hlt | hge
        · interval_cases k
          rw [pow_one] at hk
          omega
        · exact hge
      have hpow : n / 10 < 10 ^ (k - 1) := by
        rw [Nat.div_lt_iff_lt_mul (by norm_num)]
        calc n < 10 ^ k := hk
          _ = 10 ^ (k - 1) * 10 := by
            conv_lhs => rw [show k = (k - 1) + 1 by omega]
            rw [pow_succ]
      have := ih (n / 10) (k - 1) (by omega) hpow (by omega)
      simp only [List.length_append, List.length_cons, List.length_nil]
      omega

theorem natDigitsAux_ne_nil (fuel n : Nat) (h : 0 < fuel) : natDigitsAux fuel n ≠ [] := by
  match fuel with
  | fuel + 1 =>
    rw [natDigitsAux]
    split
    · simp
    · simp

theorem natDigitsAux_digit (fuel : Nat) :
    ∀ n c, c ∈ natDigitsAux fuel n → c.isDigit = true := by
  induction fuel with
  | zero => intro n c h; simp [natDigitsAux] at h
  | succ fuel ih =>
    intro n c h
    rw [natDigitsAux] at h
    split at h
    · rename_i h10
      simp at h
      subst h
      exact digitChar_isDigit n h10
    · simp at h
      rcases h with h | h
      · exact ih _ _ h
      · subst h
        exact digitChar_isDigit _ (Nat.mod_lt _ (by norm_num))

theorem fmt06_length (n : Nat) (h : n < 1000000) : (fmt06 n).length = 6 := by
  have hp : (10 : Nat) ^ 6 = 1000000 := by norm_num
  have hle : (natDigits n).length ≤ 6 :=
    natDigitsAux_length_le (n + 1) n 6 (Nat.lt_succ_self n) (hp ▸ h) (by omega)
  have hne : natDigits n ≠ [] := natDigitsAux_ne_nil (n + 1) n (Nat.succ_pos n)
  have hpos : 0 < (natDigits n).length := List.length_pos.2 hne
  simp only [fmt06, String.length, String.mk, List.length_append, List.length_replicate]
  omega

theorem fmt06_digit (n : Nat) : ∀ c ∈ (fmt06 n).data, c.isDigit = true := by
  intro c hc
  simp only [fmt06, String.mk, List.mem_append, List.mem_replicate] at hc
  rcases hc with ⟨_, rfl⟩ | hc
  · decide
  · exact natDigitsAux_digit _ _ _ hc

theorem createSubscriptionID_spec :
    ∀ (draws : List Nat) (ids : List String) (id : String) (rest : List String),
      createSubscriptionID draws ids = some (id, rest) →
      (∃ d ∈ draws, id = fmt06 (d % 1000000)) ∧ id ∉ ids ∧ rest = id :: ids := by
  intro draws
  induction draws with
  | nil => intro ids id rest h; simp [createSubscriptionID] at h
  | cons d ds ih =>
    intro ids id rest h
    rw [createSubscriptionID] at h
    split at h
    · rcases ih ids id rest h with ⟨⟨d2, hd2, hid⟩, hnot, hrest⟩
      exact ⟨⟨d2, List.mem_cons_of_mem _ hd2, hid⟩, hnot, hrest⟩
    · rename_i hmem
      rw [Option.some_inj] at h
      obtain ⟨hid, hrest⟩ := Prod.mk.injEq .. ▸ h
      subst hid
      exact ⟨⟨d, List.mem_cons_self _ _, rfl⟩, hmem, hrest.symm⟩

theorem createSubscriptionID_isSome :
    ∀ (draws : List Nat) (ids : List String),
      (∃ d ∈ draws, fmt06 (d % 1000000) ∉ ids) →
      (createSubscriptionID draws ids).isSome = true := by
  intro draws
  induction draws with
  | nil => intro ids h; simp at h
  | cons d ds ih =>
    rintro ids ⟨d2, hd2, hfresh⟩
    rw [createSubscriptionID]
    split
    · rename_i hmem
      rcases List.mem_cons.1 hd2 with rfl | hd2
      · exact absurd hmem hfresh
      · exact ih ids ⟨d2, hd2, hfresh⟩
    · rfl

theorem issueMany_spec :
    ∀ (dss : List (List Nat)) (ids : List String),
      (issueMany dss ids).1.Nodup ∧ ∀ x ∈ (issueMany dss ids).1, x ∉ ids := by
  intro dss
  induction dss with
  | nil => intro ids; simp [issueMany]
  | cons ds dss ih =>
    intro ids
    rw [issueMany]
    cases h : createSubscriptionID ds ids with
    | none => exact ih ids
    | some p =>
      obtain ⟨id, ids2⟩ := p
      rcases createSubscriptionID_spec ds ids id ids2 h with ⟨_, hnot, hrest⟩
      subst hrest
      obtain ⟨hnd, hdisj⟩ := ih (id :: ids)
      refine ⟨List.nodup_cons.2 ⟨fun hmem => hdisj id hmem (List.mem_cons_self _ _), hnd⟩, ?_⟩
      intro x hx
      rcases List.mem_cons.1 hx with rfl | hx
      · exact hnot
      · intro hxids
        exact hdisj x hx (List.mem_cons_of_mem _ hxids)

/-! ### Successful-parse lemmas -/

theorem parseContacts_none_keys (data : String → String)
    (hpc : (parseContacts data).2 = none) :
    ∀ key ∈ contactKeys, data key ≠ "" := by
  intro key hkey
  have hfind := parseContacts_snd data
  rw [hpc] at hfind
  have hnone : contactKeys.find? (fun k => data k == "") = none := by
    cases hf : contactKeys.find? (fun k => data k == "") with
    | none => rfl
    | some a => rw [hf] at hfind; simp at hfind
  have := List.find?_eq_none.1 hnone key hkey
  simpa [beq_iff_eq] using this

theorem parseData_of_keys (data : String → String) (language : Language)
    (hc : ∀ key ∈ contactKeys, data key ≠ "") :
    parseData data language =
      match parseInt64 ((splitDot (data "submit-time")).headD "") with
      | none =>
        ({ club := data "contact-club", name := data "contact-name",
           surname := data "contact-surname", email := data "contact-email",
           phone := data "contact-phone", submitTime := 0, teams := [] },
         some (ParseError.parseIntError ((splitDot (data "submit-time")).headD "")))
      | some n =>
        ({ club := data "contact-club", name := data "contact-name",
           surname := data "contact-surname", email := data "contact-email",
           phone := data "contact-phone", submitTime := n,
           teams := collectTeams data language },
         if collectTeams data language = [] then some ParseError.noTeams else none) :=
  parseData_of_nonempty data language
    (hc "contact-club" (by simp [contactKeys])) (hc "contact-name" (by simp [contactKeys]))
    (hc "contact-surname" (by simp [contactKeys])) (hc "contact-email" (by simp [contactKeys]))
    (hc "contact-phone" (by simp [contactKeys]))

theorem parseData_success (data : String → String) (language : Language) (f : Form)
    (h : parseData data language = (f, none)) :
    f.teams = collectTeams data language ∧ f.teams ≠ [] ∧
      parseInt64 ((splitDot (data "submit-time")).headD "") = some f.submitTime := by
  cases hpc : (parseContacts data).2 with
  | some e =>
    have hsnd := parseData_snd_of_contacts_some data language e hpc
    rw [h] at hsnd
    simp at hsnd
  | none =>
    rw [parseData_of_keys data language (parseContacts_none_keys data hpc)] at h
    cases hpi : parseInt64 ((splitDot (data "submit-time")).headD "") with
    | none => rw [hpi] at h; simp at h
    | some n =>
      rw [hpi] at h
      by_cases hcte : collectTeams data language = []
      · simp [hcte] at h
      · have hf : f = ⟨data "contact-club", data "contact-name", data "contact-surname",
            data "contact-email", data "contact-phone", n, collectTeams data language⟩ := by
          have := congrArg Prod.fst h
          simpa [hcte] using this.symm
        subst hf
        exact ⟨rfl, hcte, rfl⟩

/-! ### Concrete payloads -/

/-- A fully valid English payload with one team in slot 0. -/
def sampleData : String → String := fun k =>
  if k = "contact-club" then "SBC" else if k = "contact-name" then "Jan"
  else if k = "contact-surname" then "Jansen" else if k = "contact-email" then "a@b.c"
  else if k = "contact-phone" then "0612345678" else if k = "submit-time" then "1700000000.123"
  else if k = "team0-name" then "U16" else if k = "team0-type" then "Men"
  else if k = "team0-level" then "National" else ""

/-- The form `parseData` produces from `sampleData` in English. -/
def sampleForm : Form :=
  { club := "SBC", name := "Jan", surname := "Jansen", email := "a@b.c",
    phone := "0612345678", submitTime := 1700000000,
    teams := [⟨"U16", "Heren", "Bond 2"⟩] }

/-- `sampleData` with both the club and the phone missing. -/
def missingTwoData : String → String := fun k =>
  if k = "contact-club" then "" else if k = "contact-phone" then "" else sampleData k

/-- A payload with valid contact fields and submit time but no team names. -/
def noTeamsData : String → String := fun k =>
  if k = "contact-club" then "SBC" else if k = "contact-name" then "Jan"
  else if k = "contact-surname" then "Jansen" else if k = "contact-email" then "a@b.c"
  else if k = "contact-phone" then "0612345678" else if k = "submit-time" then "1700000000.5"
  else ""

/-- `sampleData` with a non-numeric submit time. -/
def badTimeData : String → String := fun k =>
  if k = "submit-time" then "abc.1" else sampleData k

/-- `sampleData` with an empty submit time. -/
def emptyTimeData : String → String := fun k =>
  if k = "submit-time" then "" else sampleData k

/-! ### The claims -/

/-- The store behaviour of the C1 counterexample: `Begin` succeeds, the
parent insert fails, the child insert and the commit succeed. -/
def c1Behavior : DbBehavior := ⟨true, none, true, true⟩

/-- A valid one-team form handed to the writer for C1. -/
def c1Form : Form :=
  { club := "SBC", name := "Jan", surname := "Jansen", email := "a@b.c",
    phone := "0612345678", submitTime := 1700000000,
    teams := [⟨"U16", "Heren", "Bond 2"⟩] }

/-- C1: the code contradicts the claim that every failing step of the
persistence transaction is rolled back and surfaced. `storeForm`
discards the result of the parent-row insert, so when that insert fails
while the child insert and the commit succeed, the call returns a nil
error and commits a child row that references the zero key, with no
parent row: a failure during the parent-row insert results in a
committed transaction containing only some of the rows. -/
theorem c1_parent_insert_failure_committed :
    storeForm c1Behavior 2024 [0] ⟨[], []⟩ [] c1Form Language.nl =
      some (none, ⟨[], [⟨0, "U16", "Heren", "Bond 2"⟩]⟩, ["000000"]) := by decide

/-- C2: every identifier returned by `createSubscriptionID` is a 6-digit
zero-padded decimal string absent from the set before the call and
inserted into the set on return; whenever the set misses some 6-digit
string there is a draw sequence on which the call returns; and across
any sequence of calls threading one identifier set, no identifier is
returned twice. -/
theorem c2_subscription_id_unique :
    (∀ (draws : List Nat) (ids : List String) (id : String) (rest : List String),
        createSubscriptionID draws ids = some (id, rest) →
        id.length = 6 ∧ (∀ c ∈ id.data, c.isDigit = true) ∧ id ∉ ids ∧ rest = id :: ids)
  ∧ (∀ ids : List String, (∃ m, m < 1000000 ∧ fmt06 m ∉ ids) →
        ∃ draws : List Nat, (createSubscriptionID draws ids).isSome = true)
  ∧ (∀ (dss : List (List Nat)) (ids : List String), (issueMany dss ids).1.Nodup) := by
  refine ⟨?_, ?_, ?_⟩
  · intro draws ids id rest h
    rcases createSubscriptionID_spec draws ids id rest h with ⟨⟨d, _, hid⟩, hnot, hrest⟩
    subst hid
    exact ⟨fmt06_length _ (Nat.mod_lt _ (by norm_num)), fmt06_digit _, hnot, hrest⟩
  · rintro ids ⟨m, hm, hfresh⟩
    refine ⟨[m], createSubscriptionID_isSome [m] ids ⟨m, List.mem_cons_self m [], ?_⟩⟩
    rwa [Nat.mod_eq_of_lt hm]
  · intro dss ids
    exact (issueMany_spec dss ids).1

theorem c2_subscription_id_unique_witness :
    ("000007" : String).length = 6 ∧ ("000007" : String) ∉ (["000005"] : List String) ∧
      (["000007", "000005"] : List String) = "000007" :: ["000005"] := by
  have h := c2_subscription_id_unique.1 [5, 7] ["000005"] "000007" ["000007", "000005"]
    (by decide)
  exact ⟨h.1, h.2.2.1, h.2.2.2⟩

/-- C3: for a team slot with a non-empty name, English parsing maps type
Men to Heren, Women to Dames and anything else to the sentinel, and
level National to Bond 2, Regional High to Regio 1, Regional Low to
Regio 3-4 and anything else to the sentinel, while Dutch parsing passes
type and level through unchanged regardless of value. -/
theorem c3_translation (data : String → String) (index : Nat)
    (h : data (teamKey index "name") ≠ "") :
    parseTeam data Language.en index =
      some ⟨data (teamKey index "name"), translateType (data (teamKey index "type")),
            translateLevel (data (teamKey index "level"))⟩
  ∧ parseTeam data Language.nl index =
      some ⟨data (teamKey index "name"), data (teamKey index "type"),
            data (teamKey index "level")⟩
  ∧ translateType "Men" = "Heren" ∧ translateType "Women" = "Dames"
  ∧ (∀ s, s ≠ "Men" → s ≠ "Women" →
        translateType s = "Onbekend, check registration-handler")
  ∧ translateLevel "National" = "Bond 2" ∧ translateLevel "Regional High" = "Regio 1"
  ∧ translateLevel "Regional Low" = "Regio 3-4"
  ∧ (∀ s, s ≠ "National" → s ≠ "Regional High" → s ≠ "Regional Low" →
        translateLevel s = "Onbekend, check registration-handler") := by
  refine ⟨?_, ?_, rfl, rfl, ?_, rfl, rfl, rfl, ?_⟩
  · rw [parseTeam_eq]; simp [h, slotTeam]
  · rw [parseTeam_eq]; simp [h, slotTeam]
  · intro s h1 h2; simp [translateType, h1, h2]
  · intro s h1 h2 h3; simp [translateLevel, h1, h2, h3]

theorem c3_translation_witness :
    parseTeam sampleData Language.en 0 =
      some ⟨sampleData (teamKey 0 "name"), translateType (sampleData (teamKey 0 "type")),
            translateLevel (sampleData (teamKey 0 "level"))⟩ :=
  (c3_translation sampleData 0 (by decide)).1

/-- C4: when some contact field is missing or empty, the parse fails
with an error naming the first missing key in the fixed order club,
name, surname, email, phone, the first one being given by `find?` over
`contactKeys`. -/
theorem c4_first_missing_contact (data : String → String) (language : Language) (k : String)
    (h : contactKeys.find? (fun key => data key == "") = some k) :
    (parseData data language).2 = some (ParseError.missingValue k) := by
  apply parseData_snd_of_contacts_some
  rw [parseContacts_snd, h]
  rfl

theorem c4_first_missing_contact_witness :
    (parseData missingTwoData Language.en).2 = some (ParseError.missingValue "contact-club") :=
  c4_first_missing_contact missingTwoData Language.en "contact-club" (by decide)

/-- C5: when the five contact fields are non-empty and the submit time
parses but no team slot has a non-empty name, the parse fails with the
no-teams error; and a successful parse never has an empty team list. -/
theorem c5_no_teams (data : String → String) (language : Language)
    (hc : ∀ key ∈ contactKeys, data key ≠ "")
    (ht : (parseInt64 ((splitDot (data "submit-time")).headD "")).isSome = true)
    (hteams : ∀ i, i < 5 → data (teamKey i "name") = "") :
    (parseData data language).2 = some ParseError.noTeams
  ∧ ∀ (d : String → String) (l : Language) (f : Form),
      parseData d l = (f, none) → f.teams ≠ [] := by
  constructor
  · obtain ⟨n, hn⟩ := Option.isSome_iff_exists.1 ht
    have hcte : collectTeams data language = [] :=
      (collectTeams_eq_nil_iff data language).2 hteams
    rw [parseData_of_keys data language hc, hn]
    simp [hcte]
  · intro d l f h
    exact (parseData_success d l f h).2.1

theorem c5_no_teams_witness :
    (parseData noTeamsData Language.nl).2 = some ParseError.noTeams :=
  (c5_no_teams noTeamsData Language.nl (by decide) (by decide) (by decide)).1

/-- C6: `Handle` selects Dutch for the exact title "Inschrijven teams"
and English for the exact title "Sign up teams"; for any other title it
returns success with the database state and the identifier set
untouched — the message is ignored, not an error. -/
theorem c6_title_dispatch (beh : DbBehavior) (year : Nat) (draws : List Nat)
    (st : DbState) (ids : List String) (message : Message)
    (h1 : message.title ≠ "Inschrijven teams") (h2 : message.title ≠ "Sign up teams") :
    Handle beh year draws st ids message = some (none, st, ids)
  ∧ langOfTitle "Inschrijven teams" = some Language.nl
  ∧ langOfTitle "Sign up teams" = some Language.en := by
  refine ⟨?_, by decide, by decide⟩
  simp [Handle, langOfTitle, h1, h2]

theorem c6_title_dispatch_witness :
    Handle ⟨true, some 1, true, true⟩ 2024 [0] ⟨[], []⟩ []
        ⟨"Unknown Form", fun _ => ""⟩ = some (none, ⟨[], []⟩, []) :=
  (c6_title_dispatch ⟨true, some 1, true, true⟩ 2024 [0] ⟨[], []⟩ []
    ⟨"Unknown Form", fun _ => ""⟩ (by decide) (by decide)).1

/-- C7: a successful parse carries as its submission timestamp the
integer parsed from the substring of the submit-time field before the
first dot; and when that prefix does not parse as an integer, the whole
parse fails. -/
theorem c7_submit_time (data : String → String) (language : Language) :
    (∀ f : Form, parseData data language = (f, none) →
        parseInt64 ((splitDot (data "submit-time")).headD "") = some f.submitTime)
  ∧ (parseInt64 ((splitDot (data "submit-time")).headD "") = none →
        ∃ e, (parseData data language).2 = some e) := by
  constructor
  · intro f h
    exact (parseData_success data language f h).2.2
  · intro hnone
    cases hpc : (parseContacts data).2 with
    | some e => exact ⟨e, parseData_snd_of_contacts_some data language e hpc⟩
    | none =>
      refine ⟨ParseError.parseIntError ((splitDot (data "submit-time")).headD ""), ?_⟩
      rw [parseData_of_keys data language (parseContacts_none_keys data hpc), hnone]

theorem c7_submit_time_witness :
    parseInt64 ((splitDot (sampleData "submit-time")).headD "") = some (1700000000 : Int)
  ∧ (parseData badTimeData Language.nl).2 ≠ none := by
  constructor
  · exact (c7_submit_time sampleData Language.en).1 sampleForm (by decide)
  · obtain ⟨e, he⟩ := (c7_submit_time badTimeData Language.nl).2 (by decide)
    rw [he]
    simp

/-- C8: a successful parse collects exactly one team per slot index in
0..4 with a non-empty name, in increasing index order; a slot with an
empty name contributes no team, and a slot with a non-empty name is
parsed even when its type and level are empty. -/
theorem c8_team_slots (data : String → String) (language : Language) (f : Form)
    (h : parseData data language = (f, none)) :
    f.teams = ((List.range 5).filter (fun i => data (teamKey i "name") != "")).map
        (slotTeam data language)
  ∧ (∀ i, data (teamKey i "name") = "" → parseTeam data language i = none)
  ∧ (∀ i, data (teamKey i "name") ≠ "" →
        parseTeam data language i = some (slotTeam data language i)) := by
  refine ⟨?_, ?_, ?_⟩
  · rw [(parseData_success data language f h).1, collectTeams_eq]
  · intro i hi
    exact (parseTeam_eq_none_iff data language i).2 hi
  · intro i hi
    rw [parseTeam_eq]
    simp [hi]

theorem c8_team_slots_witness :
    sampleForm.teams =
      ((List.range 5).filter (fun i => sampleData (teamKey i "name") != "")).map
        (slotTeam sampleData Language.en) :=
  (c8_team_slots sampleData Language.en sampleForm (by decide)).1

/-- C9: with all five contact fields non-empty and an absent or empty
submit-time value, the parse fails with the integer-parse error on the
empty string, not with the missing-value error that `readEntry` set
first: that earlier error is overwritten by the `ParseInt` assignment. -/
theorem c9_submit_time_error_overwritten (data : String → String) (language : Language)
    (hc : ∀ key ∈ contactKeys, data key ≠ "") (hst : data "submit-time" = "") :
    (parseData data language).2 = some (ParseError.parseIntError "")
  ∧ (parseData data language).2 ≠ some (ParseError.missingValue "submit-time") := by
  have hsplit : (splitDot (data "submit-time")).headD "" = "" := by rw [hst]; rfl
  have hnone : parseInt64 ((splitDot (data "submit-time")).headD "") = none := by
    rw [hsplit]; rfl
  have hmain : (parseData data language).2 = some (ParseError.parseIntError "") := by
    rw [parseData_of_keys data language hc, hnone, hsplit]
  exact ⟨hmain, by rw [hmain]; simp⟩

theorem c9_submit_time_error_overwritten_witness :
    (parseData emptyTimeData Language.nl).2 = some (ParseError.parseIntError "") :=
  (c9_submit_time_error_overwritten emptyTimeData Language.nl (by decide) (by decide)).1

/-- C10: splitting any submit-time value on dots yields a non-empty
list, so indexing the first chunk is always in bounds and `parseData`
can never return the unknown-submit-time-format error. -/
theorem c10_split_nonempty :
    (∀ s : String, splitDot s ≠ [])
  ∧ (∀ (data : String → String) (language : Language),
      (parseData data language).2 ≠ some ParseError.unknownSubmitTimeFormat) := by
  refine ⟨splitDot_ne_nil, ?_⟩
  intro data language
  cases hpc : (parseContacts data).2 with
  | some e =>
    rw [parseData_snd_of_contacts_some data language e hpc]
    have hfind := parseContacts_snd data
    rw [hpc] at hfind
    cases hf : contactKeys.find? (fun k => data k == "") with
    | none => rw [hf] at hfind; simp at hfind
    | some a =>
      rw [hf] at hfind
      simp at hfind
      subst hfind
      simp
  | none =>
    rw [parseData_of_keys data language (parseContacts_none_keys data hpc)]
    cases hpi : parseInt64 ((splitDot (data "submit-time")).headD "") with
    | none => simp
    | some n =>
      dsimp only
      split <;> simp

theorem c10_split_nonempty_witness :
    splitDot "" ≠ [] ∧
      (parseData (fun _ => "") Language.nl).2 ≠ some ParseError.unknownSubmitTimeFormat :=
  ⟨c10_split_nonempty.1 "", c10_split_nonempty.2 (fun _ => "") Language.nl⟩

end RegistrationHandler
